import Mathlib

/-!
Verification of the AQI ETL scripts (scripts/etl.py and
scripts/historical_backfill.py).

The scripts manipulate JSON payloads decoded by response.json, Python
dictionaries, a SQL store accessed through SQLAlchemy, and a sequential
driver loop.  The embedding below models:

* JSON / Python values as the inductive type PyVal.  Numbers are rationals
  (the claims under study only involve exact arithmetic).  A Python date
  object is a day index (jdate).
* Python attribute and subscript behaviour, including the exceptions each
  operation raises (AttributeError for .get on a non-dict, KeyError,
  IndexError, TypeError), as computations in Except PyErr.
* The pandas pipeline of transform_historical_data: DataFrame columns are
  lists of cells where a missing key yields a null cell (NaN), apply maps a
  function over a column, and DataFrame.mean is the arithmetic mean with
  skipna semantics: null cells are ignored, a column with no clean numeric
  data yields a null daily value, exactly as a column of Nones is dropped
  from the mean result so that dict.get returns None for it.
* The store as a list of location rows and reading rows; the SQL statements
  of load_data become operations buffered in a transaction that only takes
  effect at the final commit.
* The driver loop of etl.py as a fold over a list of units of work,
  recording fetch and upsert events; the HTTP responses and a possible
  store-side failure of the reading INSERT are inputs of each unit.
-/

/-- A decoded JSON / Python value as the scripts handle them. -/
inductive PyVal where
  | jnull : PyVal
  | jbool : Bool → PyVal
  | jnum : ℚ → PyVal
  | jstr : String → PyVal
  | jdate : ℕ → PyVal
  | jarr : List PyVal → PyVal
  | jobj : List (String × PyVal) → PyVal

/-- The Python exceptions relevant to the transform code paths. -/
inductive PyErr where
  | keyError : PyErr
  | indexError : PyErr
  | typeError : PyErr
  | attrError : PyErr
deriving DecidableEq

open PyVal

/-- Python truthiness of a value: None, False, 0, empty string, empty list
and empty dict are falsy. -/
def pyTruthy : PyVal → Bool
  | jnull => false
  | jbool b => b
  | jnum q => decide (q ≠ 0)
  | jstr s => !s.isEmpty
  | jdate _ => true
  | jarr xs => !xs.isEmpty
  | jobj fs => !fs.isEmpty

/-- Truthiness of an optional value; a fetch helper that returned None is
falsy. -/
def optTruthy : Option PyVal → Bool
  | none => false
  | some v => pyTruthy v

/-- Python d.get(k, default): returns the stored value (even None) when the
key is present, the default otherwise; raises AttributeError when the
receiver is not a dict. -/
def pyGetD (v : PyVal) (k : String) (dflt : PyVal) : Except PyErr PyVal :=
  match v with
  | jobj fs => .ok ((fs.lookup k).getD dflt)
  | _ => .error .attrError

/-- Python v[0]: first element of a list (IndexError when empty), first
character of a string, KeyError on a dict (integer key absent from a
string-keyed dict), TypeError otherwise. -/
def pyIndex0 : PyVal → Except PyErr PyVal
  | jarr [] => .error .indexError
  | jarr (x :: _) => .ok x
  | jstr s =>
      match s.data with
      | [] => .error .indexError
      | c :: _ => .ok (jstr (String.mk [c]))
  | jobj _ => .error .keyError
  | _ => .error .typeError

/-- Python iteration: a list yields its elements, a string its characters,
a dict its keys; anything else raises TypeError. -/
def pyIterate : PyVal → Except PyErr (List PyVal)
  | jarr xs => .ok xs
  | jstr s => .ok (s.data.map (fun c => jstr (String.mk [c])))
  | jobj fs => .ok (fs.map (fun kv => jstr kv.1))
  | _ => .error .typeError

/-- Python equality between a value and a string literal: only an equal
string compares equal. -/
def pyEqStr : PyVal → String → Bool
  | jstr s, t => s == t
  | _, _ => false

/-- Field lookup on a dict value; none when the key is missing or the value
is not a dict. -/
def lookupField (v : PyVal) (k : String) : Option PyVal :=
  match v with
  | jobj fs => fs.lookup k
  | _ => none

/-- A DataFrame cell for a row and column name: the stored value, or null
(NaN) when the row does not carry the key. -/
def rowCell (row : PyVal) (k : String) : PyVal := (lookupField row k).getD jnull

/-- The weather half shared verbatim by transform_data and
transform_historical_data: daily_weather = weather.get(daily, default) and
the three [0] projections, in source order. -/
def weatherTriple (weather : PyVal) : Except PyErr (PyVal × PyVal × PyVal) := do
  let daily_weather ← pyGetD weather "daily" (jobj [])
  let temp ← pyIndex0 (← pyGetD daily_weather "temperature_2m_mean" (jarr [jnull]))
  let precip ← pyIndex0 (← pyGetD daily_weather "precipitation_sum" (jarr [jnull]))
  let wind ← pyIndex0 (← pyGetD daily_weather "wind_speed_10m_max" (jarr [jnull]))
  .ok (temp, precip, wind)

/-- The lazy generator next((item for item in items if item.get(code) ==
uaqi), default-part handled by the caller): stops at the first match, never
touching later items. -/
def findUaqiItem : List PyVal → Except PyErr (Option PyVal)
  | [] => .ok none
  | item :: rest => do
      let c ← pyGetD item "code" jnull
      if pyEqStr c "uaqi" then .ok (some item) else findUaqiItem rest

/-- One step of the pollutant dict comprehension: evaluates p.get(code) and
p.get(concentration, empty).get(value); a non-dict p or a non-dict
concentration raises AttributeError, an unhashable key raises TypeError. -/
def pollutantPair (p : PyVal) : Except PyErr (PyVal × PyVal) := do
  let code ← pyGetD p "code" jnull
  let conc ← pyGetD p "concentration" (jobj [])
  let v ← pyGetD conc "value" jnull
  match code with
  | jarr _ => .error .typeError
  | jobj _ => .error .typeError
  | _ => .ok (code, v)

/-- The dict comprehension over the pollutants list, kept in insertion
order (a later duplicate code overwrites an earlier one at lookup time). -/
def buildPollutantDict : List PyVal → Except PyErr (List (PyVal × PyVal))
  | [] => .ok []
  | p :: rest => do
      let kv ← pollutantPair p
      let tail ← buildPollutantDict rest
      .ok (kv :: tail)

/-- Python dict lookup over the comprehension pairs, last write wins, with
.get default None for an absent code. -/
def dictGetAux (d : List (PyVal × PyVal)) (k : String) (acc : Option PyVal) : Option PyVal :=
  match d with
  | [] => acc
  | cv :: rest => dictGetAux rest k (if pyEqStr cv.1 k then some cv.2 else acc)

/-- Value stored under a string code in the pollutant dict, None when
absent. -/
def dictGetVal (d : List (PyVal × PyVal)) (k : String) : PyVal :=
  (dictGetAux d k none).getD jnull

/-- Body of transform_data from scripts/etl.py, before its try/except:
weather projections, the uaqi index search, and the pollutant extraction,
building the result dict in source order.  datetime.now().date() is the
ambient current date, passed as the explicit parameter today. -/
def transform_data_body (today : ℕ) (aqi_data weather_data : PyVal) :
    Except PyErr PyVal := do
  let tw ← weatherTriple weather_data
  let items ← pyIterate (← pyGetD aqi_data "indexes" (jarr []))
  let found ← findUaqiItem items
  let aqi_index := found.getD (jobj [])
  let aqi ← pyGetD aqi_index "aqi" jnull
  let ps ← pyIterate (← pyGetD aqi_data "pollutants" (jarr []))
  let pdict ← buildPollutantDict ps
  .ok (jobj [("reading_date", jdate today), ("aqi", aqi),
    ("pm10", dictGetVal pdict "pm10"), ("pm25", dictGetVal pdict "pm25"),
    ("o3", dictGetVal pdict "o3"), ("no2", dictGetVal pdict "no2"),
    ("co", dictGetVal pdict "co"), ("so2", dictGetVal pdict "so2"),
    ("temperature_celsius", tw.1), ("precipitation_mm", tw.2.1),
    ("wind_speed_kmh", tw.2.2)])

/-- transform_data from scripts/etl.py: falsy inputs yield None, and the
body runs under except (KeyError, IndexError, TypeError) which returns
None; any other exception, such as AttributeError, propagates. -/
def transform_data (today : ℕ) (aqi_data weather_data : Option PyVal) :
    Except PyErr (Option PyVal) :=
  if !optTruthy aqi_data || !optTruthy weather_data then .ok none
  else
    match transform_data_body today (aqi_data.getD jnull) (weather_data.getD jnull) with
    | .ok r => .ok (some r)
    | .error .keyError => .ok none
    | .error .indexError => .ok none
    | .error .typeError => .ok none
    | .error e => .error e

/-- get_aqi from transform_historical_data, applied to one cell of the
indexes column: None for a non-list cell, otherwise the aqi of the first
index entry whose code is uaqi. -/
def get_aqi_loop : List PyVal → Except PyErr PyVal
  | [] => .ok jnull
  | idx :: rest => do
      let c ← pyGetD idx "code" jnull
      if pyEqStr c "uaqi" then pyGetD idx "aqi" jnull else get_aqi_loop rest

/-- get_aqi on a DataFrame cell. -/
def get_aqi (cell : PyVal) : Except PyErr PyVal :=
  match cell with
  | jarr idxs => get_aqi_loop idxs
  | _ => .ok jnull

/-- get_pollutant_value on a DataFrame cell: None for a non-list cell,
otherwise the dict comprehension followed by .get(code). -/
def get_pollutant_value (cell : PyVal) (code : String) : Except PyErr PyVal :=
  match cell with
  | jarr ps => do
      let d ← buildPollutantDict ps
      .ok (dictGetVal d code)
  | _ => .ok jnull

/-- Is the cell a dict row. -/
def isObjCell : PyVal → Bool
  | jobj _ => true
  | _ => false

/-- pd.DataFrame(hourly_readings): the hourly payload must be a list of
dict rows; any other shape makes the construction or a later column access
raise (the raised kind is irrelevant, the enclosing handler catches
Exception). -/
def dfRows (hourly : PyVal) : Except PyErr (List PyVal) :=
  match hourly with
  | jarr xs => if xs.all isObjCell then .ok xs else .error .typeError
  | _ => .error .typeError

/-- Column selection df[k]: KeyError when no row carries the key, otherwise
one cell per row with null (NaN) for rows missing the key. -/
def dfColumn (rows : List PyVal) (k : String) : Except PyErr (List PyVal) :=
  if rows.all (fun r => (lookupField r k).isNone) then .error .keyError
  else .ok (rows.map (fun r => rowCell r k))

/-- Series.apply: maps the function over the cells, propagating the first
exception it raises. -/
def applyColumn (f : PyVal → Except PyErr PyVal) : List PyVal → Except PyErr (List PyVal)
  | [] => .ok []
  | c :: rest => do
      let v ← f c
      let tail ← applyColumn f rest
      .ok (v :: tail)

/-- Is the cell clean numeric data for a mean (Python bools are ints). -/
def isNumCell : PyVal → Bool
  | jnum _ => true
  | jbool _ => true
  | _ => false

/-- Is the cell null / NaN. -/
def isNullCell : PyVal → Bool
  | jnull => true
  | _ => false

/-- Numeric content of a cell. -/
def cellQ : PyVal → ℚ
  | jnum q => q
  | jbool b => if b then 1 else 0
  | _ => 0

/-- DataFrame.mean on one column with skipna semantics: nulls are ignored;
a column without clean numeric data contributes no mean, so the daily value
read back through dict.get is None. -/
def pandasMean (col : List PyVal) : PyVal :=
  let reported := col.filter (fun c => !isNullCell c)
  if reported.isEmpty then jnull
  else if reported.all isNumCell then
    jnum ((reported.map cellQ).sum / (reported.length : ℚ))
  else jnull

/-- Body of transform_historical_data from scripts/historical_backfill.py,
before its try/except: weather projections, the hoursInfo extraction and
early None return, the DataFrame construction and the seven column means,
building the result dict in source order. -/
def transform_historical_body (d : ℕ) (aqi_hist weather_data : PyVal) :
    Except PyErr (Option PyVal) := do
  let tw ← weatherTriple weather_data
  let hourly ← pyGetD aqi_hist "hoursInfo" (jarr [])
  if !pyTruthy hourly then .ok none
  else do
    let rows ← dfRows hourly
    let idxCol ← dfColumn rows "indexes"
    let aqiCol ← applyColumn get_aqi idxCol
    let polCol ← dfColumn rows "pollutants"
    let pm10Col ← applyColumn (fun c => get_pollutant_value c "pm10") polCol
    let pm25Col ← applyColumn (fun c => get_pollutant_value c "pm25") polCol
    let o3Col ← applyColumn (fun c => get_pollutant_value c "o3") polCol
    let no2Col ← applyColumn (fun c => get_pollutant_value c "no2") polCol
    let coCol ← applyColumn (fun c => get_pollutant_value c "co") polCol
    let so2Col ← applyColumn (fun c => get_pollutant_value c "so2") polCol
    .ok (some (jobj [("reading_date", jdate d), ("aqi", pandasMean aqiCol),
      ("pm10", pandasMean pm10Col), ("pm25", pandasMean pm25Col),
      ("o3", pandasMean o3Col), ("no2", pandasMean no2Col),
      ("co", pandasMean coCol), ("so2", pandasMean so2Col),
      ("temperature_celsius", tw.1), ("precipitation_mm", tw.2.1),
      ("wind_speed_kmh", tw.2.2)]))

/-- transform_historical_data: falsy inputs yield None; the body runs under
except Exception, so every raised error becomes None as well. -/
def transform_historical_data (d : ℕ) (aqi_history_data weather_data : Option PyVal) :
    Option PyVal :=
  if !optTruthy aqi_history_data || !optTruthy weather_data then none
  else
    match transform_historical_body d (aqi_history_data.getD jnull) (weather_data.getD jnull) with
    | .ok r => r
    | .error _ => none

/-! ## The reading store and load_data

load_data in the two scripts is line for line the same logic (the etl.py
copy is modelled; the backfill copy differs only in its log line): within
one connection it SELECTs the location id by (city, country), INSERTs the
location when the lookup is falsy, mutates reading_data with the resolved
location_id, executes the reading INSERT ... ON CONFLICT (location_id,
reading_date) DO UPDATE of every non-key column, and commits once at the
end.  The SQL effects are modelled as operations buffered inside a
transaction that only becomes durable at the commit marker, matching the
single connection.commit() at the end of the function. -/

/-- One entry of the module-level LOCATIONS list / the location_info dict. -/
structure LocationInfo where
  city : String
  country : String
  latitude : ℚ
  longitude : ℚ

/-- A row of the locations table. -/
structure LocationRow where
  id : ℕ
  city : String
  country : String
  latitude : ℚ
  longitude : ℚ

/-- A row of the daily_readings table.  The key is (location_id,
reading_date); the ten non-key columns store whatever value the statement
bound. -/
structure ReadingRow where
  location_id : ℕ
  reading_date : ℕ
  aqi : PyVal
  pm10 : PyVal
  pm25 : PyVal
  o3 : PyVal
  no2 : PyVal
  co : PyVal
  so2 : PyVal
  temperature_celsius : PyVal
  precipitation_mm : PyVal
  wind_speed_kmh : PyVal

/-- The durable store: the two tables and the next value of the locations
id sequence. -/
structure DB where
  locations : List LocationRow
  readings : List ReadingRow
  nextLocId : ℕ

/-- A write the transaction buffers. -/
inductive DbOp where
  | insertLoc : LocationRow → DbOp
  | upsertReading : ReadingRow → DbOp

/-- A step of the executed statement trace: a buffered write or a commit. -/
inductive TxnOp where
  | op : DbOp → TxnOp
  | commit : TxnOp

/-- Do two reading rows share the (location_id, reading_date) key. -/
def sameReadingKey (a b : ReadingRow) : Bool :=
  a.location_id == b.location_id && a.reading_date == b.reading_date

/-- Apply one durable write: location INSERT appends a row and advances the
id sequence; the reading INSERT ... ON CONFLICT DO UPDATE replaces every
non-key column of the row with the same key, or appends when the key is
new. -/
def applyOp (db : DB) : DbOp → DB
  | .insertLoc l => { db with locations := db.locations ++ [l], nextLocId := l.id + 1 }
  | .upsertReading row =>
      if db.readings.any (sameReadingKey row) then
        { db with readings := db.readings.map (fun r => if sameReadingKey row r then row else r) }
      else { db with readings := db.readings ++ [row] }

/-- Apply a batch of buffered writes. -/
def applyOps (db : DB) (ops : List DbOp) : DB := ops.foldl applyOp db

/-- Run a statement trace transactionally: writes accumulate in a buffer
and become durable at a commit; a trace that ends (or is cut) without a
commit loses the buffered writes, which is the rollback on closing the
connection. -/
def runTxnAux (base : DB) (buf : List DbOp) : List TxnOp → DB
  | [] => base
  | .op o :: rest => runTxnAux base (buf ++ [o]) rest
  | .commit :: rest => runTxnAux (applyOps base buf) [] rest

/-- The store state after the whole trace ran. -/
def runTxn (db : DB) (tr : List TxnOp) : DB := runTxnAux db [] tr

/-- The store state when the run aborts after the first k steps of the
trace: only writes made durable by an executed commit survive. -/
def runTxnCrash (db : DB) (tr : List TxnOp) (k : ℕ) : DB := runTxn db (tr.take k)

/-- Errors load_data can surface to its caller. -/
inductive LoadErr where
  | multipleResults : LoadErr
  | notADict : LoadErr
  | bindError : LoadErr
  | storeFault : LoadErr
deriving DecidableEq

/-- The rows the location SELECT matches for a location_info dict. -/
def locMatches (db : DB) (info : LocationInfo) : List LocationRow :=
  db.locations.filter (fun l => l.city == info.city && l.country == info.country)

/-- scalar_one_or_none on the SELECT result: none for no row, the id for
one row, MultipleResultsFound raised for several. -/
def scalarOneOrNone (rows : List LocationRow) : Except LoadErr (Option ℕ) :=
  match rows with
  | [] => .ok none
  | [l] => .ok (some l.id)
  | _ => .error .multipleResults

/-- Python d[k] = v on a dict: replaces the value in place when the key
exists, appends the pair otherwise. -/
def setField : List (String × PyVal) → String → PyVal → List (String × PyVal)
  | [], k, v => [(k, v)]
  | (k₀, v₀) :: rest, k, v =>
      if k₀ == k then (k, v) :: rest else (k₀, v₀) :: setField rest k v

/-- The item assignment reading_data[location_id] = location_id; a non-dict
receiver would raise. -/
def dictSetItem (d : PyVal) (k : String) (v : PyVal) : Except LoadErr PyVal :=
  match d with
  | jobj fs => .ok (jobj (setField fs k v))
  | _ => .error .notADict

/-- Bind the twelve named parameters of the reading INSERT from the
reading_data dict: every key must be present and reading_date must be a
date (a missing parameter or an unbindable date raises before anything is
written).  The location_id parameter is the value the function just stored
into the dict, so it is passed through directly. -/
def bindReadingRow (d : PyVal) (locId : ℕ) : Except LoadErr ReadingRow :=
  match lookupField d "location_id", lookupField d "reading_date",
      lookupField d "aqi", lookupField d "pm10", lookupField d "pm25",
      lookupField d "o3", lookupField d "no2", lookupField d "co",
      lookupField d "so2", lookupField d "temperature_celsius",
      lookupField d "precipitation_mm", lookupField d "wind_speed_kmh" with
  | some _, some (jdate dt), some aqi, some pm10, some pm25, some o3,
      some no2, some co, some so2, some tc, some pm, some ws =>
        .ok ⟨locId, dt, aqi, pm10, pm25, o3, no2, co, so2, tc, pm, ws⟩
  | _, _, _, _, _, _, _, _, _, _, _, _ => .error .bindError

/-- load_data as the statement trace it executes plus the mutated
reading_data dict and the resolved location id.  A falsy reading_data
returns early with no statements.  The storeFault flag injects a
store-side failure of the reading INSERT execute (a persistence error on
the upsert), which raises before the commit is reached. -/
def load_data_trace (db : DB) (info : LocationInfo) (reading_data : PyVal)
    (storeFault : Bool) : Except LoadErr (List TxnOp × PyVal × Option ℕ) :=
  if !pyTruthy reading_data then .ok ([], reading_data, none)
  else do
    let existing ← scalarOneOrNone (locMatches db info)
    let useExisting := match existing with
      | some n => n != 0
      | none => false
    let newLoc : LocationRow :=
      ⟨db.nextLocId, info.city, info.country, info.latitude, info.longitude⟩
    let locOps : List TxnOp := if useExisting then [] else [.op (.insertLoc newLoc)]
    let location_id : ℕ := if useExisting then existing.getD 0 else db.nextLocId
    let reading1 ← dictSetItem reading_data "location_id" (jnum (location_id : ℚ))
    let row ← bindReadingRow reading1 location_id
    if storeFault then .error .storeFault
    else .ok (locOps ++ [.op (.upsertReading row), .commit], reading1, some location_id)

/-- load_data: run the statement trace against the store.  On success the
new store state, the mutated dict and the resolved location id are
returned; on an error the transaction never reached its commit and the
store is unchanged. -/
def load_data (db : DB) (info : LocationInfo) (reading_data : PyVal)
    (storeFault : Bool) : Except LoadErr (DB × PyVal × Option ℕ) :=
  match load_data_trace db info reading_data storeFault with
  | .ok (tr, d, i) => .ok (runTxn db tr, d, i)
  | .error e => .error e

/-- Store well-formedness: the id sequence and every stored id are
positive, reading keys are unique, and every reading resolves to a stored
location. -/
def DBWF (db : DB) : Prop :=
  0 < db.nextLocId ∧
  (∀ l ∈ db.locations, 0 < l.id) ∧
  db.readings.Pairwise (fun a b => a.location_id ≠ b.location_id ∨ a.reading_date ≠ b.reading_date) ∧
  (∀ r ∈ db.readings, ∃ l ∈ db.locations, l.id = r.location_id)

/-! ## The run driver of etl.py

The __main__ loop: for each location, fetch_air_quality_data (which checks
GOOGLE_API_KEY and returns None without any HTTP request when the key is
falsy), fetch_weather_data (no credential needed, always an HTTP request),
transform_data, and load_data when the transformed reading is truthy.
Nothing catches an exception around the loop body, so a raised error
propagates and ends the run.  The HTTP responses (None for a transport
error) and a possible store fault are inputs carried by each unit of
work. -/

/-- The process environment as the fetchers read it. -/
structure Env where
  google_api_key : Option String

/-- Python truthiness of os.getenv result: unset or empty is falsy. -/
def keyTruthy (env : Env) : Bool :=
  match env.google_api_key with
  | none => false
  | some s => !s.isEmpty

/-- One unit of work of the run: a location, the two HTTP outcomes the
network would produce if the requests are made, and whether the store
fails the reading INSERT of this unit. -/
structure UnitInput where
  loc : LocationInfo
  aqiNet : Option PyVal
  weatherNet : Option PyVal
  storeFault : Bool

/-- Observable events of a run. -/
inductive Event where
  | aqiHttp : Event
  | weatherHttp : Event
  | upsert : String → Event

/-- Why a run stopped before its unit list was exhausted. -/
inductive RunHalt where
  | pyErr : PyErr → RunHalt
  | dbErr : LoadErr → RunHalt

/-- fetch_air_quality_data: with a falsy GOOGLE_API_KEY it returns None
before any request; otherwise the HTTP request happens and its outcome is
returned. -/
def fetch_air_quality_data (env : Env) (net : Option PyVal) :
    List Event × Option PyVal :=
  if keyTruthy env then ([.aqiHttp], net) else ([], none)

/-- fetch_weather_data: needs no credential, always issues the request. -/
def fetch_weather_data (net : Option PyVal) : List Event × Option PyVal :=
  ([.weatherHttp], net)

/-- One iteration of the driver loop: both fetches, the transform, and the
load when the reading is truthy.  An exception from the transform or the
load is not caught anywhere, so it stops the run. -/
def processUnit (env : Env) (today : ℕ) (db : DB) (u : UnitInput) :
    DB × List Event × Option RunHalt :=
  let fa := fetch_air_quality_data env u.aqiNet
  let fw := fetch_weather_data u.weatherNet
  let ev := fa.1 ++ fw.1
  match transform_data today fa.2 fw.2 with
  | .error e => (db, ev, some (.pyErr e))
  | .ok none => (db, ev, none)
  | .ok (some reading) =>
      if pyTruthy reading then
        match load_data db u.loc reading u.storeFault with
        | .ok (db', _, _) => (db', ev ++ [.upsert u.loc.city], none)
        | .error e => (db, ev, some (.dbErr e))
      else (db, ev, none)

/-- The __main__ loop of etl.py over its unit list: units run in order;
a halt ends the run at once, with the events so far and the store as the
failed unit left it. -/
def runMain (env : Env) (today : ℕ) (db : DB) : List UnitInput → DB × List Event × Option RunHalt
  | [] => (db, [], none)
  | u :: rest =>
      match processUnit env today db u with
      | (db', ev, some h) => (db', ev, some h)
      | (db', ev, none) =>
          match runMain env today db' rest with
          | (db'', ev', h) => (db'', ev ++ ev', h)

/-! ## Spec-side description of the historical averaging (for C2)

These definitions follow the words of the specification: for AQI and each
pollutant code, the daily value is the arithmetic mean across the hourly
entries that report a value for that field, ignoring entries missing it,
and null when no entry reports it.  The value an hourly entry reports is,
for AQI, the aqi of its first index entry tagged uaqi, and for a pollutant
code, the concentration value of its (last) pollutant entry tagged with
that code, in each case only when that value is a number. -/

/-- Encode an optional number the way the result dict stores it. -/
def encodeOpt : Option ℚ → PyVal
  | none => jnull
  | some q => jnum q

/-- Modelled from the spec: the arithmetic mean across the hourly entries
that report a value (ignoring the rest); null when none report. -/
def specDailyMean (vs : List (Option ℚ)) : Option ℚ :=
  let xs := vs.filterMap id
  if xs.isEmpty then none else some (xs.sum / (xs.length : ℚ))

/-- The AQI a list of index entries reports: the aqi value of the first
entry tagged uaqi, when numeric. -/
def specAqiList : List PyVal → Option ℚ
  | [] => none
  | idx :: rest =>
      if pyEqStr (rowCell idx "code") "uaqi" then
        match rowCell idx "aqi" with
        | jnum q => some q
        | _ => none
      else specAqiList rest

/-- The AQI an hourly entry reports through its indexes field. -/
def specAqiCell (cell : PyVal) : Option ℚ :=
  match cell with
  | jarr idxs => specAqiList idxs
  | _ => none

/-- The concentration value carried by one pollutant entry. -/
def specPairValue (p : PyVal) : PyVal :=
  rowCell ((lookupField p "concentration").getD (jobj [])) "value"

/-- The value the pollutant entries report for a code: the concentration
value of the last entry tagged with the code, when numeric. -/
def specPolList (ps : List PyVal) (code : String) (acc : Option ℚ) : Option ℚ :=
  match ps with
  | [] => acc
  | p :: rest =>
      specPolList rest code
        (if pyEqStr (rowCell p "code") code then
          match specPairValue p with
          | jnum q => some q
          | _ => none
        else acc)

/-- The value an hourly entry reports for a pollutant code through its
pollutants field. -/
def specPolCell (cell : PyVal) (code : String) : Option ℚ :=
  match cell with
  | jarr ps => specPolList ps code none
  | _ => none

/-- A well-shaped index entry: a dict whose aqi value, when present, is
null or a number. -/
def indexWF (idx : PyVal) : Bool :=
  match idx with
  | jobj fs =>
      match fs.lookup "aqi" with
      | none => true
      | some jnull => true
      | some (jnum _) => true
      | some _ => false
  | _ => false

/-- A well-shaped indexes cell: a list of well-shaped index entries, or any
non-list (which reports nothing). -/
def indexesCellWF (cell : PyVal) : Bool :=
  match cell with
  | jarr idxs => idxs.all indexWF
  | _ => true

/-- A well-shaped pollutant entry: a dict whose code is hashable and not a
container, and whose concentration, when present, is a dict whose value is
null or a number when present. -/
def pollutantWF (p : PyVal) : Bool :=
  match p with
  | jobj fs =>
      (match fs.lookup "code" with
        | some (jarr _) => false
        | some (jobj _) => false
        | _ => true) &&
      (match fs.lookup "concentration" with
        | none => true
        | some (jobj cfs) =>
            match cfs.lookup "value" with
            | none => true
            | some jnull => true
            | some (jnum _) => true
            | some _ => false
        | some _ => false)
  | _ => false

/-- A well-shaped pollutants cell: a list of well-shaped pollutant entries,
or any non-list (which reports nothing). -/
def pollutantsCellWF (cell : PyVal) : Bool :=
  match cell with
  | jarr ps => ps.all pollutantWF
  | _ => true

/-- A well-shaped hourly entry, the domain on which the claim speaks: a
dict whose indexes and pollutants fields carry values that are null or
numbers where the schema puts numbers. -/
def hourRowWF (row : PyVal) : Bool :=
  isObjCell row && indexesCellWF (rowCell row "indexes") &&
    pollutantsCellWF (rowCell row "pollutants")

/-- The new location row load_data inserts when the SELECT finds
nothing. -/
def freshLoc (db : DB) (info : LocationInfo) : LocationRow :=
  ⟨db.nextLocId, info.city, info.country, info.latitude, info.longitude⟩

/-- The reading row described by the newly supplied reading_data dict for
a resolved location id and a bound date. -/
def suppliedRow (fs : List (String × PyVal)) (i dt : ℕ) : ReadingRow :=
  ⟨i, dt, (fs.lookup "aqi").getD jnull, (fs.lookup "pm10").getD jnull,
    (fs.lookup "pm25").getD jnull, (fs.lookup "o3").getD jnull,
    (fs.lookup "no2").getD jnull, (fs.lookup "co").getD jnull,
    (fs.lookup "so2").getD jnull, (fs.lookup "temperature_celsius").getD jnull,
    (fs.lookup "precipitation_mm").getD jnull, (fs.lookup "wind_speed_kmh").getD jnull⟩

/-- A fixed location of the LOCATIONS list (coordinates rounded for the
test fixtures; only city and country identify a location). -/
def savannahInfo : LocationInfo := ⟨"Savannah", "USA", 32, -81⟩

/-- A well-formed air-quality response fixture. -/
def aqiRespX : PyVal :=
  jobj [("indexes", jarr [jobj [("code", jstr "uaqi"), ("aqi", jnum 42)]]),
    ("pollutants", jarr [jobj [("code", jstr "pm25"),
      ("concentration", jobj [("value", jnum 8)])]])]

/-- A well-formed weather response fixture. -/
def weatherRespX : PyVal :=
  jobj [("daily", jobj [("temperature_2m_mean", jarr [jnum 21]),
    ("precipitation_sum", jarr [jnum 0]), ("wind_speed_10m_max", jarr [jnum 5])])]

/-- A unit of work whose fetches succeed and whose store works. -/
def unitOk : UnitInput := ⟨savannahInfo, some aqiRespX, some weatherRespX, false⟩

/-- The same unit of work, but the store fails its reading INSERT. -/
def unitFault : UnitInput := ⟨savannahInfo, some aqiRespX, some weatherRespX, true⟩

/-- An environment with the data-source credential set. -/
def envWithKey : Env := ⟨some "k"⟩

/-- An environment missing the data-source credential. -/
def envNoKey : Env := ⟨none⟩

/-- A fresh empty store. -/
def emptyDB : DB := ⟨[], [], 1⟩

/-- A reading_data dict fixture with aqi 5 and all other measures null. -/
def fsAqi5 : List (String × PyVal) :=
  [("reading_date", jdate 7), ("aqi", jnum 5), ("pm10", jnull), ("pm25", jnull),
   ("o3", jnull), ("no2", jnull), ("co", jnull), ("so2", jnull),
   ("temperature_celsius", jnull), ("precipitation_mm", jnull), ("wind_speed_kmh", jnull)]

/-- The same dict fixture with a null aqi. -/
def fsAqiNull : List (String × PyVal) :=
  [("reading_date", jdate 7), ("aqi", jnull), ("pm10", jnull), ("pm25", jnull),
   ("o3", jnull), ("no2", jnull), ("co", jnull), ("so2", jnull),
   ("temperature_celsius", jnull), ("precipitation_mm", jnull), ("wind_speed_kmh", jnull)]

/-- The store after loading fsAqi5 into the empty store. -/
def dbAfter1 : DB :=
  ⟨[⟨1, "Savannah", "USA", 32, -81⟩],
   [⟨1, 7, jnum 5, jnull, jnull, jnull, jnull, jnull, jnull, jnull, jnull, jnull⟩], 2⟩

/-- The store after then loading fsAqiNull for the same key. -/
def dbAfter2 : DB :=
  ⟨[⟨1, "Savannah", "USA", 32, -81⟩],
   [⟨1, 7, jnull, jnull, jnull, jnull, jnull, jnull, jnull, jnull, jnull, jnull⟩], 2⟩

/-- The statement trace of the first load against the empty store. -/
def traceW : List TxnOp :=
  [.op (.insertLoc ⟨1, "Savannah", "USA", 32, -81⟩),
   .op (.upsertReading ⟨1, 7, jnum 5, jnull, jnull, jnull, jnull, jnull, jnull,
     jnull, jnull, jnull⟩),
   .commit]

/-- The record transform_data builds from the response fixtures. -/
def etlRecordX : PyVal :=
  jobj [("reading_date", jdate 3), ("aqi", jnum 42), ("pm10", jnull),
    ("pm25", jnum 8), ("o3", jnull), ("no2", jnull), ("co", jnull),
    ("so2", jnull), ("temperature_celsius", jnum 21),
    ("precipitation_mm", jnum 0), ("wind_speed_kmh", jnum 5)]

/-- Hourly entries fixture: pm25 reports 10, 20, null, 30 across four
hours, one hour reports uaqi AQI 50, no hour reports any other
pollutant. -/
def hoursW : List PyVal :=
  [jobj [("indexes", jarr [jobj [("code", jstr "uaqi"), ("aqi", jnum 50)]]),
     ("pollutants", jarr [jobj [("code", jstr "pm25"),
       ("concentration", jobj [("value", jnum 10)])]])],
   jobj [("pollutants", jarr [jobj [("code", jstr "pm25"),
     ("concentration", jobj [("value", jnum 20)])]])],
   jobj [("pollutants", jarr [jobj [("code", jstr "pm25"),
     ("concentration", jobj [("value", jnull)])]])],
   jobj [("pollutants", jarr [jobj [("code", jstr "pm25"),
     ("concentration", jobj [("value", jnum 30)])]])]]

/-- The historical response fixture wrapping hoursW. -/
def aqiHistW : PyVal := jobj [("hoursInfo", jarr hoursW)]

/-- The record transform_historical_data builds from the fixtures: the
pm25 mean of the three reporting hours is 20, the unreported pollutants
are null. -/
def histRecordW : PyVal :=
  jobj [("reading_date", jdate 5), ("aqi", jnum 50), ("pm10", jnull),
    ("pm25", jnum 20), ("o3", jnull), ("no2", jnull), ("co", jnull),
    ("so2", jnull), ("temperature_celsius", jnum 21),
    ("precipitation_mm", jnum 0), ("wind_speed_kmh", jnum 5)]

/-! ## Theorems -/

/-- Reduction of a successful Except bind. -/
@[simp] theorem exceptBindOk {α β ε : Type} (a : α) (f : α → Except ε β) :
    (Except.ok a >>= f) = f a := rfl

/-- Reduction of a failed Except bind. -/
@[simp] theorem exceptBindErr {α β ε : Type} (e : ε) (f : α → Except ε β) :
    ((Except.error e : Except ε α) >>= f) = .error e := rfl

/-- C8: the merge is null-propagating: a null air-quality input yields a
null output, a null weather input yields a null output, in both the
current and the historical path, and in the historical path an empty
hourly list also yields a null output (the unit of work is dropped). -/
theorem c8_null_propagation :
    (∀ today w, transform_data today none w = .ok none) ∧
    (∀ today a, transform_data today a none = .ok none) ∧
    (∀ d w, transform_historical_data d none w = none) ∧
    (∀ d a, transform_historical_data d a none = none) ∧
    (∀ d w, transform_historical_data d (some (jobj [("hoursInfo", jarr [])])) w = none) := by
  refine ⟨fun today w => ?_, fun today a => ?_, fun d w => ?_, fun d a => ?_, fun d w => ?_⟩
  · simp [transform_data, optTruthy]
  · simp [transform_data, optTruthy]
  · simp [transform_historical_data, optTruthy]
  · simp [transform_historical_data, optTruthy]
  · cases hw : optTruthy w with
    | false => simp [transform_historical_data, hw]
    | true =>
        simp only [transform_historical_data, hw, optTruthy, pyTruthy, Bool.not_true,
          Bool.or_false, Bool.false_or, Bool.not_false, List.isEmpty_cons, ite_false,
          if_false, Bool.not_eq_true']
        cases hwt : weatherTriple (w.getD jnull) with
        | error e => simp [transform_historical_body, hwt]
        | ok tw => simp [transform_historical_body, hwt, pyGetD, pyTruthy]

/-- C9 evidence: transform_data of etl.py is not total on structurally
malformed inputs: a truthy weather response whose daily field is a string
makes daily_weather.get raise AttributeError, which the handler
except (KeyError, IndexError, TypeError) does not catch, so the call
raises instead of returning null.  (The backfill transform catches
Exception and does return null there.) -/
theorem c9_attr_error_escapes :
    transform_data 3 (some (jobj [("indexes", jarr [])]))
      (some (jobj [("daily", jstr "oops")])) = .error .attrError ∧
    transform_historical_data 3 (some (jobj [("hoursInfo", jarr [jobj [("indexes", jarr [])]])]))
      (some (jobj [("daily", jstr "oops")])) = none := by
  exact ⟨rfl, rfl⟩

/-- A successful transform_data body always carries the ambient current
date in its reading_date field. -/
theorem transform_data_body_date {today : ℕ} {a w r : PyVal}
    (h : transform_data_body today a w = .ok r) :
    lookupField r "reading_date" = some (jdate today) := by
  simp only [transform_data_body, bind, Except.bind] at h
  repeat' split at h
  all_goals simp_all
  subst h
  rfl

/-- A successful transform_historical_data body always carries the target
date in its reading_date field. -/
theorem transform_historical_body_date {d : ℕ} {a w r : PyVal}
    (h : transform_historical_body d a w = .ok (some r)) :
    lookupField r "reading_date" = some (jdate d) := by
  simp only [transform_historical_body, bind, Except.bind] at h
  repeat' split at h
  all_goals simp_all
  subst h
  rfl

/-- C5: for every valid (non-null) pair of merge inputs that yields a
record, the reading_date of the record is the caller-supplied target date
(for the current-conditions path, the ambient current date passed as
today), regardless of payload content. -/
theorem c5_reading_date :
    (∀ today a w r, transform_data today a w = .ok (some r) →
      lookupField r "reading_date" = some (jdate today)) ∧
    (∀ d a w r, transform_historical_data d a w = some r →
      lookupField r "reading_date" = some (jdate d)) := by
  constructor
  · intro today a w r h
    simp only [transform_data] at h
    split at h
    · simp at h
    · split at h
      all_goals simp_all
      exact transform_data_body_date (by assumption)
  · intro d a w r h
    simp only [transform_historical_data] at h
    split at h
    · simp at h
    · split at h
      all_goals simp_all
      exact transform_historical_body_date (by assumption)

/-- Full characterization of a successful load_data_trace: either the
falsy early return, or the dict was mutated with the resolved id and the
trace is the reading upsert (plus the location insert when the SELECT
produced nothing truthy) followed by the single commit. -/
theorem load_data_trace_char {db : DB} {info : LocationInfo} {rd : PyVal} {sf : Bool}
    {tr : List TxnOp} {d' : PyVal} {oi : Option ℕ}
    (h : load_data_trace db info rd sf = .ok (tr, d', oi)) :
    (pyTruthy rd = false ∧ tr = [] ∧ d' = rd ∧ oi = none) ∨
    (pyTruthy rd = true ∧ sf = false ∧
      ∃ fs i row, rd = jobj fs ∧ oi = some i ∧
        d' = jobj (setField fs "location_id" (jnum (i : ℚ))) ∧
        bindReadingRow d' i = .ok row ∧
        ((∃ l, locMatches db info = [l] ∧ l.id = i ∧ i ≠ 0 ∧
            tr = [.op (.upsertReading row), .commit]) ∨
         ((locMatches db info = [] ∨ ∃ l₀, locMatches db info = [l₀] ∧ l₀.id = 0) ∧
            i = db.nextLocId ∧
            tr = [.op (.insertLoc (freshLoc db info)), .op (.upsertReading row), .commit]))) := by
  simp only [load_data_trace, bind, Except.bind] at h
  split at h
  · left
    rename_i htr
    simp only [Except.ok.injEq, Prod.mk.injEq] at h
    exact ⟨by simpa using htr, h.1.symm, h.2.1.symm, h.2.2.symm⟩
  · right
    rename_i htr
    refine ⟨by simpa using htr, ?_⟩
    rcases hm : locMatches db info with _ | ⟨l, _ | ⟨l2, rest⟩⟩ <;>
      rw [hm] at h <;> simp only [scalarOneOrNone, exceptBindOk, exceptBindErr] at h
    · -- no matching location: insert branch
      cases rd with
      | jobj fs =>
          simp only [dictSetItem, exceptBindOk, bne_self_eq_false, Option.getD_some,
            Bool.false_eq_true, reduceIte] at h
          split at h
          · simp at h
          · rename_i row hb
            split at h
            · simp at h
            · rename_i hsf
              simp only [Except.ok.injEq, Prod.mk.injEq] at h
              refine ⟨by simpa using hsf, fs, db.nextLocId, row, rfl, h.2.2.symm,
                h.2.1.symm, ?_, ?_⟩
              · rw [← h.2.1]; exact hb
              · exact Or.inr ⟨Or.inl rfl, rfl, by simp [← h.1, freshLoc]⟩
      | jnull => simp [dictSetItem] at h
      | jbool b => simp [dictSetItem] at h
      | jnum q => simp [dictSetItem] at h
      | jstr s => simp [dictSetItem] at h
      | jdate n => simp [dictSetItem] at h
      | jarr xs => simp [dictSetItem] at h
    · -- exactly one matching location
      by_cases hid : l.id = 0
      · cases rd with
        | jobj fs =>
            rw [hid] at h
            simp only [dictSetItem, exceptBindOk, bne_self_eq_false, Option.getD_some,
              Bool.false_eq_true, reduceIte] at h
            split at h
            · simp at h
            · rename_i row hb
              split at h
              · simp at h
              · rename_i hsf
                simp only [Except.ok.injEq, Prod.mk.injEq] at h
                refine ⟨by simpa using hsf, fs, db.nextLocId, row, rfl, h.2.2.symm,
                  h.2.1.symm, ?_, ?_⟩
                · rw [← h.2.1]; exact hb
                · exact Or.inr ⟨Or.inr ⟨l, rfl, hid⟩, rfl, by simp [← h.1, freshLoc]⟩
        | jnull => simp [dictSetItem] at h
        | jbool b => simp [dictSetItem] at h
        | jnum q => simp [dictSetItem] at h
        | jstr s => simp [dictSetItem] at h
        | jdate n => simp [dictSetItem] at h
        | jarr xs => simp [dictSetItem] at h
      · have hbne : (l.id != 0) = true := by simpa using hid
        cases rd with
        | jobj fs =>
            simp only [hbne, dictSetItem, exceptBindOk, Option.getD_some, reduceIte] at h
            split at h
            · simp at h
            · rename_i row hb
              split at h
              · simp at h
              · rename_i hsf
                simp only [Except.ok.injEq, Prod.mk.injEq] at h
                refine ⟨by simpa using hsf, fs, l.id, row, rfl, h.2.2.symm,
                  h.2.1.symm, ?_, ?_⟩
                · rw [← h.2.1]; exact hb
                · exact Or.inl ⟨l, rfl, rfl, hid, by simp [← h.1]⟩
        | jnull => simp [dictSetItem] at h
        | jbool b => simp [dictSetItem] at h
        | jnum q => simp [dictSetItem] at h
        | jstr s => simp [dictSetItem] at h
        | jdate n => simp [dictSetItem] at h
        | jarr xs => simp [dictSetItem] at h
    · -- several matching locations: raised, never ok
      simp at h

/-- Item assignment stores the value under the key. -/
theorem lookup_setField_self (fs : List (String × PyVal)) (k : String) (v : PyVal) :
    (setField fs k v).lookup k = some v := by
  induction fs with
  | nil => simp [setField]
  | cons kv rest ih =>
      obtain ⟨k₀, v₀⟩ := kv
      by_cases hk : k₀ = k
      · subst hk; simp [setField]
      · simp only [setField, beq_iff_eq, hk, if_false, List.lookup]
        have : (k == k₀) = false := by simpa using fun hc => hk hc.symm
        simp [this, ih]

/-- Item assignment leaves every other key unchanged. -/
theorem lookup_setField_ne (fs : List (String × PyVal)) (k k' : String) (v : PyVal)
    (h : k' ≠ k) : (setField fs k v).lookup k' = fs.lookup k' := by
  have hf : (k' == k) = false := by simpa using h
  induction fs with
  | nil => simp [setField, List.lookup, hf]
  | cons kv rest ih =>
      obtain ⟨k₀, v₀⟩ := kv
      by_cases hk : k₀ = k
      · subst hk
        simp only [setField, beq_self_eq_true, if_true, List.lookup, hf]
      · simp only [setField, beq_iff_eq, hk, if_false, List.lookup, ih]

/-- C10: load_data mutates its reading_data argument: after a successful
call on a truthy dict, the dict carries a location_id key holding the
resolved location id, and every other key still holds its previous
value. -/
theorem c10_load_mutates_dict {db : DB} {info : LocationInfo} {fs : List (String × PyVal)}
    {sf : Bool} {db' : DB} {d' : PyVal} {n : ℕ}
    (h : load_data db info (jobj fs) sf = .ok (db', d', some n)) :
    lookupField d' "location_id" = some (jnum (n : ℚ)) ∧
    ∀ k : String, k ≠ "location_id" → lookupField d' k = fs.lookup k := by
  unfold load_data at h
  cases ht : load_data_trace db info (jobj fs) sf with
  | error e => rw [ht] at h; simp at h
  | ok x =>
      obtain ⟨tr, d0, oi⟩ := x
      rw [ht] at h
      simp only [Except.ok.injEq, Prod.mk.injEq] at h
      obtain ⟨hdb, hd, hoi⟩ := h
      rcases load_data_trace_char ht with ⟨_, _, _, hoi0⟩ |
        ⟨_, _, fs', i, row, hfs, hoi0, hd0, _, _⟩
      · rw [hoi0] at hoi; simp at hoi
      · have hfs' : fs' = fs := by injection hfs.symm
        have hin : i = n := by rw [hoi0] at hoi; injection hoi
        rw [hfs', hin] at hd0
        rw [← hd, hd0]
        constructor
        · simpa [lookupField] using lookup_setField_self fs "location_id" (jnum (n : ℚ))
        · intro k hk
          simpa [lookupField] using lookup_setField_ne fs "location_id" k (jnum (n : ℚ)) hk

/-- A reading present after an upsert is the upserted row or a previously
stored row. -/
theorem mem_upsert_readings {db : DB} {row r : ReadingRow}
    (h : r ∈ (applyOp db (.upsertReading row)).readings) :
    r = row ∨ r ∈ db.readings := by
  simp only [applyOp] at h
  split at h
  · obtain ⟨r₀, hr₀, hif⟩ := List.mem_map.1 h
    by_cases hk : sameReadingKey row r₀
    · left; rw [if_pos hk] at hif; exact hif.symm
    · right; rw [if_neg hk] at hif; rwa [← hif]
  · rcases List.mem_append.1 h with h₀ | h₀
    · right; exact h₀
    · left; simpa using h₀

/-- An upsert never touches the locations table. -/
theorem upsert_locations (db : DB) (row : ReadingRow) :
    (applyOp db (.upsertReading row)).locations = db.locations := by
  simp only [applyOp]; split <;> rfl

/-- The row bound for the reading INSERT carries the resolved location
id. -/
theorem bindReadingRow_locId {d : PyVal} {i : ℕ} {row : ReadingRow}
    (h : bindReadingRow d i = .ok row) : row.location_id = i := by
  unfold bindReadingRow at h
  split at h
  · injection h with h'
    rw [← h']
  · simp at h

/-- C7: within one call to load_data the location find-or-create and the
reading upsert form one transaction: cutting the executed statement trace
at any point leaves the store either untouched or with the full effect of
the call, and in either case no stored reading points at a location id
that no location row carries (assuming the store satisfied that to begin
with). -/
theorem c7_transactional {db : DB} {info : LocationInfo} {rd : PyVal} {sf : Bool}
    {tr : List TxnOp} {d' : PyVal} {oi : Option ℕ}
    (h : load_data_trace db info rd sf = .ok (tr, d', oi)) :
    ∀ k : ℕ,
      (runTxnCrash db tr k = db ∨ runTxnCrash db tr k = runTxn db tr) ∧
      ((∀ r ∈ db.readings, ∃ l ∈ db.locations, l.id = r.location_id) →
        ∀ r ∈ (runTxnCrash db tr k).readings,
          ∃ l ∈ (runTxnCrash db tr k).locations, l.id = r.location_id) := by
  intro k
  have hres : runTxnCrash db tr k = db ∨ runTxnCrash db tr k = runTxn db tr := by
    rcases load_data_trace_char h with ⟨_, htr, _, _⟩ |
      ⟨_, _, fs, i, row, _, _, _, _, ⟨l, hm, hli, _, htr⟩ | ⟨_, _, htr⟩⟩
    · subst htr; left
      simp [runTxnCrash, List.take_nil, runTxn, runTxnAux]
    · subst htr
      rcases k with _ | _ | n
      · left; rfl
      · left; rfl
      · right
        simp only [runTxnCrash, List.take_succ_cons, List.take_nil]
    · subst htr
      rcases k with _ | _ | _ | n
      · left; rfl
      · left; rfl
      · left; rfl
      · right
        simp only [runTxnCrash, List.take_succ_cons, List.take_nil]
  refine ⟨hres, fun hresolve r hr => ?_⟩
  rcases hres with heq | heq
  · rw [heq] at hr ⊢; exact hresolve r hr
  · rw [heq] at hr ⊢
    rcases load_data_trace_char h with ⟨_, htr, _, _⟩ |
      ⟨_, _, fs, i, row, _, _, _, hbind, ⟨l, hm, hli, _, htr⟩ | ⟨_, hi, htr⟩⟩
    · subst htr; exact hresolve r hr
    · -- existing location: trace is upsert then commit
      subst htr
      have hrow : row.location_id = i := bindReadingRow_locId hbind
      rw [show runTxn db [.op (.upsertReading row), .commit] =
        applyOp db (.upsertReading row) from rfl] at hr ⊢
      rw [upsert_locations]
      rcases mem_upsert_readings hr with hcase | hcase
      · subst hcase
        have : l ∈ db.locations := List.mem_of_mem_filter (hm ▸ List.mem_singleton_self l)
        exact ⟨l, this, by rw [hli, hrow]⟩
      · exact hresolve r hcase
    · -- fresh location: trace is insert, upsert, commit
      subst htr
      have hrow : row.location_id = i := bindReadingRow_locId hbind
      rw [show runTxn db [.op (.insertLoc (freshLoc db info)), .op (.upsertReading row), .commit] =
        applyOp (applyOp db (.insertLoc (freshLoc db info))) (.upsertReading row) from rfl] at hr ⊢
      rw [upsert_locations]
      rcases mem_upsert_readings hr with hcase | hcase
      · subst hcase
        refine ⟨freshLoc db info, ?_, by rw [hrow, hi]; rfl⟩
        simp [applyOp]
      · obtain ⟨l, hl, hlid⟩ := hresolve r hcase
        exact ⟨l, by simp [applyOp, hl], hlid⟩

/-- Key sameness unfolded. -/
theorem sameReadingKey_iff {a b : ReadingRow} :
    sameReadingKey a b = true ↔
      a.location_id = b.location_id ∧ a.reading_date = b.reading_date := by
  simp [sameReadingKey]

/-- A row matches its own key. -/
theorem sameReadingKey_self (row : ReadingRow) : sameReadingKey row row = true := by
  simp [sameReadingKey]

/-- The reading INSERT ... ON CONFLICT DO UPDATE leaves exactly the
upserted row under its key when the stored keys are unique. -/
theorem upsert_filter_exact {L : List ReadingRow} {row : ReadingRow}
    (hpw : L.Pairwise (fun a b => a.location_id ≠ b.location_id ∨ a.reading_date ≠ b.reading_date)) :
    (if L.any (sameReadingKey row) = true then
        L.map (fun r => if sameReadingKey row r then row else r)
      else L ++ [row]).filter (sameReadingKey row) = [row] := by
  induction L with
  | nil => simp [sameReadingKey_self]
  | cons a L ih =>
      rw [List.pairwise_cons] at hpw
      by_cases hka : sameReadingKey row a = true
      · have hrest : ∀ b ∈ L, sameReadingKey row b = false := by
          intro b hb
          rcases sameReadingKey_iff.1 hka with ⟨h1, h2⟩
          rcases hpw.1 b hb with hne | hne
          · simp only [sameReadingKey, Bool.and_eq_true, beq_iff_eq]
            simp [h1 ▸ hne]
          · simp only [sameReadingKey, Bool.and_eq_true, beq_iff_eq]
            simp [h2 ▸ hne]
        have hany : (a :: L).any (sameReadingKey row) = true := by simp [hka]
        rw [if_pos hany]
        simp only [List.map_cons, hka, if_pos, List.filter_cons, sameReadingKey_self,
          if_true]
        have : (L.map (fun r => if sameReadingKey row r then row else r)).filter
            (sameReadingKey row) = [] := by
          rw [List.filter_eq_nil_iff]
          intro x hx
          obtain ⟨b, hb, hfb⟩ := List.mem_map.1 hx
          rw [hrest b hb] at hfb
          simp only [Bool.false_eq_true, if_false] at hfb
          rw [← hfb]
          simp [hrest b hb]
        simp [this]
      · have hka' : sameReadingKey row a = false := by simpa using hka
        by_cases hL : L.any (sameReadingKey row) = true
        · have hany : (a :: L).any (sameReadingKey row) = true := by simp [hL]
          rw [if_pos hany]
          simp only [List.map_cons, hka', Bool.false_eq_true, if_false, List.filter_cons]
          rw [if_pos hL] at ih
          simp [hka', ih hpw.2]
        · have hL' : L.any (sameReadingKey row) = false := by simpa using hL
          have hany : (a :: L).any (sameReadingKey row) = false := by simp [hka', hL']
          rw [hany]
          simp only [Bool.false_eq_true, if_false, List.cons_append, List.filter_cons, hka']
          rw [if_neg (by simp [hL'])] at ih
          simp [hka', ih hpw.2]

/-- Inversion of a successful parameter binding: each bound column value
is the value stored in the dict. -/
theorem bindReadingRow_char {d : PyVal} {i : ℕ} {row : ReadingRow}
    (h : bindReadingRow d i = .ok row) :
    row.location_id = i ∧
    lookupField d "reading_date" = some (jdate row.reading_date) ∧
    lookupField d "aqi" = some row.aqi ∧
    lookupField d "pm10" = some row.pm10 ∧
    lookupField d "pm25" = some row.pm25 ∧
    lookupField d "o3" = some row.o3 ∧
    lookupField d "no2" = some row.no2 ∧
    lookupField d "co" = some row.co ∧
    lookupField d "so2" = some row.so2 ∧
    lookupField d "temperature_celsius" = some row.temperature_celsius ∧
    lookupField d "precipitation_mm" = some row.precipitation_mm ∧
    lookupField d "wind_speed_kmh" = some row.wind_speed_kmh := by
  unfold bindReadingRow at h
  split at h
  · injection h with h'
    subst h'
    refine ⟨rfl, ?_, ?_, ?_, ?_, ?_, ?_, ?_, ?_, ?_, ?_, ?_⟩ <;> assumption
  · simp at h

/-- The readings table after an upsert, unfolded. -/
theorem upsert_readings_eq (db : DB) (row : ReadingRow) :
    (applyOp db (.upsertReading row)).readings =
      (if db.readings.any (sameReadingKey row) = true then
        db.readings.map (fun r => if sameReadingKey row r then row else r)
      else db.readings ++ [row]) := by
  simp only [applyOp]
  split <;> simp_all

/-- The row load_data binds is exactly the supplied row: every non-key
column comes from the dict as supplied (a null value included). -/
theorem bound_row_is_supplied {fs : List (String × PyVal)} {i dt : ℕ} {row : ReadingRow}
    (hdt : fs.lookup "reading_date" = some (jdate dt))
    (hbind : bindReadingRow (jobj (setField fs "location_id" (jnum (i : ℚ)))) i = .ok row) :
    row = suppliedRow fs i dt := by
  obtain ⟨h0, h1, h2, h3, h4, h5, h6, h7, h8, h9, h10, h11⟩ := bindReadingRow_char hbind
  have hne : ∀ k : String, k ≠ "location_id" →
      lookupField (jobj (setField fs "location_id" (jnum (i : ℚ)))) k = fs.lookup k := by
    intro k hk
    simpa [lookupField] using lookup_setField_ne fs "location_id" k (jnum (i : ℚ)) hk
  rw [hne "reading_date" (by decide)] at h1
  rw [hne "aqi" (by decide)] at h2
  rw [hne "pm10" (by decide)] at h3
  rw [hne "pm25" (by decide)] at h4
  rw [hne "o3" (by decide)] at h5
  rw [hne "no2" (by decide)] at h6
  rw [hne "co" (by decide)] at h7
  rw [hne "so2" (by decide)] at h8
  rw [hne "temperature_celsius" (by decide)] at h9
  rw [hne "precipitation_mm" (by decide)] at h10
  rw [hne "wind_speed_kmh" (by decide)] at h11
  have hdt' : row.reading_date = dt := by
    rw [hdt] at h1
    injection h1 with h1'
    injection h1'.symm
  cases row
  simp only [suppliedRow, ReadingRow.mk.injEq]
  simp_all

/-- C3: a successful upsert for a key leaves exactly one stored row for
that key, whose non-key columns all equal the newly supplied values (a
newly null value overwrites a previously non-null one), and an upsert for
an existing key does not grow the table. -/
theorem c3_upsert_replaces {db : DB} {info : LocationInfo} {fs : List (String × PyVal)}
    {db' : DB} {d' : PyVal} {i dt : ℕ}
    (hwf : DBWF db)
    (hdt : fs.lookup "reading_date" = some (jdate dt))
    (h : load_data db info (jobj fs) false = .ok (db', d', some i)) :
    db'.readings.filter (sameReadingKey (suppliedRow fs i dt)) = [suppliedRow fs i dt] ∧
    (db.readings.any (sameReadingKey (suppliedRow fs i dt)) = true →
      db'.readings.length = db.readings.length) := by
  unfold load_data at h
  cases ht : load_data_trace db info (jobj fs) false with
  | error e => rw [ht] at h; simp at h
  | ok x =>
      obtain ⟨tr, d0, oi⟩ := x
      rw [ht] at h
      simp only [Except.ok.injEq, Prod.mk.injEq] at h
      obtain ⟨hdb, hd, hoi⟩ := h
      rcases load_data_trace_char ht with ⟨_, _, _, hoi0⟩ |
        ⟨_, _, fs', i', row, hfs, hoi0, hd0, hbind, hcases⟩
      · rw [hoi0] at hoi; simp at hoi
      · have hfs' : fs' = fs := by injection hfs.symm
        have hii : i' = i := by
          rw [hoi0] at hoi; injection hoi
        rw [hd0, hfs', hii] at hbind
        rw [hii] at hcases
        have hrow : row = suppliedRow fs i dt := bound_row_is_supplied hdt hbind
        subst hrow
        have hreadings : db'.readings =
            (if db.readings.any (sameReadingKey (suppliedRow fs i dt)) = true then
              db.readings.map (fun r => if sameReadingKey (suppliedRow fs i dt) r then
                suppliedRow fs i dt else r)
            else db.readings ++ [suppliedRow fs i dt]) := by
          rcases hcases with ⟨l, _, _, _, htr⟩ | ⟨_, _, htr⟩
          · subst htr
            rw [← hdb]
            rw [show runTxn db [.op (.upsertReading (suppliedRow fs i dt)), .commit] =
              applyOp db (.upsertReading (suppliedRow fs i dt)) from rfl]
            exact upsert_readings_eq db (suppliedRow fs i dt)
          · subst htr
            rw [← hdb]
            rw [show runTxn db [.op (.insertLoc (freshLoc db info)),
              .op (.upsertReading (suppliedRow fs i dt)), .commit] =
              applyOp (applyOp db (.insertLoc (freshLoc db info)))
                (.upsertReading (suppliedRow fs i dt)) from rfl]
            rw [upsert_readings_eq]
            rfl
        constructor
        · rw [hreadings]
          exact upsert_filter_exact hwf.2.2.1
        · intro hany
          rw [hreadings, if_pos hany]
          exact List.length_map _ _

/-- How one successful load_data call changes the two tables, when every
stored location id is positive: the location SELECT either found one row,
whose id is reused and the locations table is untouched, or found nothing
and exactly the fresh row is appended; and every reading afterwards is an
old reading or carries the resolved id. -/
theorem load_data_step {db : DB} {info : LocationInfo} {fs : List (String × PyVal)}
    {db' : DB} {d' : PyVal} {i : ℕ}
    (hpos : ∀ l ∈ db.locations, 0 < l.id)
    (h : load_data db info (jobj fs) false = .ok (db', d', some i)) :
    ((locMatches db info = [] ∧ db'.locations = db.locations ++ [freshLoc db info] ∧
        i = db.nextLocId) ∨
      (∃ l, locMatches db info = [l] ∧ db'.locations = db.locations ∧ i = l.id)) ∧
    (∀ r ∈ db'.readings, r ∈ db.readings ∨ r.location_id = i) := by
  unfold load_data at h
  cases ht : load_data_trace db info (jobj fs) false with
  | error e => rw [ht] at h; simp at h
  | ok x =>
      obtain ⟨tr, d0, oi⟩ := x
      rw [ht] at h
      simp only [Except.ok.injEq, Prod.mk.injEq] at h
      obtain ⟨hdb, hd, hoi⟩ := h
      rcases load_data_trace_char ht with ⟨_, _, _, hoi0⟩ |
        ⟨_, _, fs', i', row, hfs, hoi0, hd0, hbind, hcases⟩
      · rw [hoi0] at hoi; simp at hoi
      · have hii : i' = i := by rw [hoi0] at hoi; injection hoi
        rw [hii] at hcases
        rw [hd0, hii] at hbind
        have hrowid : row.location_id = i := bindReadingRow_locId hbind
        rcases hcases with ⟨l, hm, hli, _, htr⟩ | ⟨hm0, hi, htr⟩
        · subst htr
          rw [show runTxn db [.op (.upsertReading row), .commit] =
            applyOp db (.upsertReading row) from rfl] at hdb
          refine ⟨Or.inr ⟨l, hm, by rw [← hdb, upsert_locations], hli.symm⟩, ?_⟩
          intro r hr
          rw [← hdb] at hr
          rcases mem_upsert_readings hr with hc | hc
          · right; rw [hc, hrowid]
          · left; exact hc
        · rcases hm0 with hm | ⟨l₀, hm, hl₀⟩
          · subst htr
            rw [show runTxn db [.op (.insertLoc (freshLoc db info)),
              .op (.upsertReading row), .commit] =
              applyOp (applyOp db (.insertLoc (freshLoc db info)))
                (.upsertReading row) from rfl] at hdb
            refine ⟨Or.inl ⟨hm, by rw [← hdb, upsert_locations]; rfl, hi⟩, ?_⟩
            intro r hr
            rw [← hdb] at hr
            rcases mem_upsert_readings hr with hc | hc
            · right; rw [hc, hrowid]
            · left; exact hc
          · exfalso
            have : l₀ ∈ db.locations :=
              List.mem_of_mem_filter (hm ▸ List.mem_singleton_self l₀)
            have := hpos l₀ this
            omega

/-- Location ids stay positive across a load_data call. -/
theorem pos_after_step {db db' : DB} {info : LocationInfo} {i : ℕ}
    (hloc : (locMatches db info = [] ∧ db'.locations = db.locations ++ [freshLoc db info] ∧
        i = db.nextLocId) ∨
      (∃ l, locMatches db info = [l] ∧ db'.locations = db.locations ∧ i = l.id))
    (hpos : ∀ l ∈ db.locations, 0 < l.id) (hnext : 0 < db.nextLocId) :
    ∀ l ∈ db'.locations, 0 < l.id := by
  rcases hloc with ⟨_, hl, _⟩ | ⟨l₀, _, hl, _⟩
  · rw [hl]
    intro l hmem
    rcases List.mem_append.1 hmem with hm | hm
    · exact hpos l hm
    · have : l = freshLoc db info := by simpa using hm
      rw [this]; exact hnext
  · rw [hl]; exact hpos

/-- A reading written by load_data resolves to a stored location
afterwards, when all previous readings did. -/
theorem resolve_after_step {db db' : DB} {info : LocationInfo} {i : ℕ}
    (hloc : (locMatches db info = [] ∧ db'.locations = db.locations ++ [freshLoc db info] ∧
        i = db.nextLocId) ∨
      (∃ l, locMatches db info = [l] ∧ db'.locations = db.locations ∧ i = l.id))
    (hrd : ∀ r ∈ db'.readings, r ∈ db.readings ∨ r.location_id = i)
    (hres : ∀ r ∈ db.readings, ∃ l ∈ db.locations, l.id = r.location_id) :
    ∀ r ∈ db'.readings, ∃ l ∈ db'.locations, l.id = r.location_id := by
  intro r hr
  have hsub : ∀ l ∈ db.locations, l ∈ db'.locations := by
    rcases hloc with ⟨_, hl, _⟩ | ⟨l₀, _, hl, _⟩
    · rw [hl]; intro l hm; exact List.mem_append.2 (Or.inl hm)
    · rw [hl]; intro l hm; exact hm
  rcases hrd r hr with hc | hc
  · obtain ⟨l, hl, hid⟩ := hres r hc
    exact ⟨l, hsub l hl, hid⟩
  · rcases hloc with ⟨_, hl, hi⟩ | ⟨l₀, hm₀, hl, hi⟩
    · refine ⟨freshLoc db info, ?_, ?_⟩
      · rw [hl]; exact List.mem_append.2 (Or.inr (List.mem_singleton_self _))
      · rw [hc, hi]; rfl
    · refine ⟨l₀, ?_, ?_⟩
      · rw [hl]
        exact List.mem_of_mem_filter (hm₀ ▸ List.mem_singleton_self l₀)
      · rw [hc, hi]

/-- C4: location resolution is stable and readings never dangle: under
sequential execution, two successful load_data calls against a well-formed
store for the same (city, country) resolve to the same location id, the
second call adds no location row, exactly one location row for the pair
is stored, and every stored reading references a stored location row. -/
theorem c4_location_stable {db : DB} {info₁ info₂ : LocationInfo}
    {fs₁ fs₂ : List (String × PyVal)} {db₁ db₂ : DB} {d₁ d₂ : PyVal} {i₁ i₂ : ℕ}
    (hwf : DBWF db)
    (hcity : info₂.city = info₁.city) (hcountry : info₂.country = info₁.country)
    (h₁ : load_data db info₁ (jobj fs₁) false = .ok (db₁, d₁, some i₁))
    (h₂ : load_data db₁ info₂ (jobj fs₂) false = .ok (db₂, d₂, some i₂)) :
    i₁ = i₂ ∧ db₂.locations = db₁.locations ∧
    locMatches db₂ info₁ = locMatches db₁ info₁ ∧
    (locMatches db₂ info₁).length = 1 ∧
    (∀ r ∈ db₂.readings, ∃ l ∈ db₂.locations, l.id = r.location_id) := by
  have hloc1 := (load_data_step hwf.2.1 h₁).1
  have hrd1 := (load_data_step hwf.2.1 h₁).2
  have hmm : locMatches db₁ info₂ = locMatches db₁ info₁ := by
    unfold locMatches
    rw [hcity, hcountry]
  -- after the first call the pair has exactly one stored row, with id i₁
  have hone : ∃ l₁, locMatches db₁ info₁ = [l₁] ∧ l₁.id = i₁ := by
    rcases hloc1 with ⟨hm, hl, hi⟩ | ⟨l, hm, hl, hi⟩
    · refine ⟨freshLoc db info₁, ?_, hi.symm⟩
      unfold locMatches at hm ⊢
      rw [hl, List.filter_append, hm]
      simp [freshLoc]
    · refine ⟨l, ?_, hi.symm⟩
      unfold locMatches at hm ⊢
      rw [hl, hm]
  obtain ⟨l₁, hm₁, hid₁⟩ := hone
  have hpos1 : ∀ l ∈ db₁.locations, 0 < l.id := pos_after_step hloc1 hwf.2.1 hwf.1
  have hloc2 := (load_data_step hpos1 h₂).1
  have hrd2 := (load_data_step hpos1 h₂).2
  rcases hloc2 with ⟨hm, _, _⟩ | ⟨l, hm, hl, hi⟩
  · rw [hmm, hm₁] at hm; simp at hm
  · have hmatch2 : locMatches db₁ info₂ = [l] := hm
    rw [hmm, hm₁] at hm
    have hll : l₁ = l := by simpa using hm
    have hi12 : i₁ = i₂ := by rw [hi, ← hll, hid₁]
    have hm2 : locMatches db₂ info₁ = locMatches db₁ info₁ := by
      unfold locMatches
      rw [hl]
    refine ⟨hi12, hl, hm2, by rw [hm2, hm₁]; rfl, ?_⟩
    have hres1 : ∀ r ∈ db₁.readings, ∃ l ∈ db₁.locations, l.id = r.location_id :=
      resolve_after_step hloc1 hrd1 hwf.2.2.2
    exact resolve_after_step (Or.inr ⟨l, hmatch2, hl, hi⟩) hrd2 hres1

/-- C1 as stated is false: with the credential set, a store-side
persistence error on the first unit of work ends the whole run — the
second, healthy unit is never fetched (no further fetch events) and never
upserted (the store stays empty), although the same unit alone would have
been fetched, merged and upserted. -/
theorem c1_counterexample :
    runMain envWithKey 7 emptyDB [unitFault, unitOk] =
      (emptyDB, [.aqiHttp, .weatherHttp], some (.dbErr .storeFault)) ∧
    runMain envWithKey 7 emptyDB [unitOk] =
      (⟨[⟨1, "Savannah", "USA", 32, -81⟩],
        [⟨1, 7, jnum 42, jnull, jnum 8, jnull, jnull, jnull, jnull, jnum 21, jnum 0, jnum 5⟩],
        2⟩,
       [.aqiHttp, .weatherHttp, .upsert "Savannah"], none) := ⟨rfl, rfl⟩

/-- C1 amended: an error raised inside load_data propagates out of the
driver loop uncaught: the run ends with that unit, no later unit of work
is fetched, merged or upserted, and when the halt is a persistence error
the failed unit left the store unchanged (its transaction never reached
the commit). -/
theorem c1_halt_propagates {env : Env} {today : ℕ} {db db' : DB} {u : UnitInput}
    {ev : List Event} {hl : RunHalt}
    (h : processUnit env today db u = (db', ev, some hl)) :
    (∀ rest, runMain env today db (u :: rest) = (db', ev, some hl)) ∧
    (∀ e, hl = .dbErr e → db' = db) := by
  constructor
  · intro rest
    simp only [runMain, h]
  · intro e he
    subst he
    simp only [processUnit] at h
    rcases htd : transform_data today (fetch_air_quality_data env u.aqiNet).2
        (fetch_weather_data u.weatherNet).2 with e' | r
    · rw [htd] at h; simp at h
    · rw [htd] at h
      match r with
      | none => simp at h
      | some reading =>
          simp only [] at h
          by_cases htr : pyTruthy reading = true
          · rw [if_pos htr] at h
            rcases hld : load_data db u.loc reading u.storeFault with e' | x
            · rw [hld] at h
              simp only [Prod.mk.injEq] at h
              exact h.1.symm
            · obtain ⟨dbx, dx, ix⟩ := x
              rw [hld] at h
              simp at h
          · rw [if_neg htr] at h
            simp at h

/-- C1 amended witness at concrete inputs. -/
theorem c1_halt_propagates_witness :
    runMain envWithKey 7 emptyDB [unitFault, unitOk] =
      (emptyDB, [Event.aqiHttp, Event.weatherHttp], some (RunHalt.dbErr .storeFault)) ∧
    emptyDB = emptyDB :=
  ⟨(c1_halt_propagates (show processUnit envWithKey 7 emptyDB unitFault =
      (emptyDB, [Event.aqiHttp, Event.weatherHttp], some (RunHalt.dbErr .storeFault))
      from rfl)).1 [unitOk],
   (c1_halt_propagates (show processUnit envWithKey 7 emptyDB unitFault =
      (emptyDB, [Event.aqiHttp, Event.weatherHttp], some (RunHalt.dbErr .storeFault))
      from rfl)).2 .storeFault rfl⟩

/-- C6 as stated is false: with the credential absent the run does not
halt before any fetch — it completes all units (no halt), executes the
weather HTTP fetch of every unit, and merely skips the upserts. -/
theorem c6_counterexample :
    runMain envNoKey 7 emptyDB [unitOk, unitOk] =
      (emptyDB, [Event.weatherHttp, Event.weatherHttp], none) ∧
    [Event.weatherHttp, Event.weatherHttp] ≠ ([] : List Event) :=
  ⟨rfl, by simp⟩

/-- C6 amended: a falsy data-source credential is handled per unit of
work, not at startup: every air-quality fetch returns null without an AQI
HTTP request, the weather fetch of every unit still executes, every merge
yields null so nothing is upserted, the store is untouched, and the run
completes all its units instead of halting. -/
theorem c6_missing_key_run_continues {env : Env} (hkey : keyTruthy env = false)
    (today : ℕ) (db : DB) (units : List UnitInput) :
    runMain env today db units = (db, List.replicate units.length .weatherHttp, none) := by
  induction units with
  | nil => rfl
  | cons u rest ih =>
      have hpu : processUnit env today db u = (db, [.weatherHttp], none) := by
        unfold processUnit fetch_air_quality_data fetch_weather_data
        rw [hkey]
        simp [transform_data, optTruthy]
      simp only [runMain, hpu, ih, List.length_cons, List.replicate_succ]
      rfl

/-- C6 amended witness at concrete inputs. -/
theorem c6_missing_key_run_continues_witness :
    runMain envNoKey 7 emptyDB [unitOk, unitOk] =
      (emptyDB, List.replicate 2 Event.weatherHttp, none) :=
  c6_missing_key_run_continues (show keyTruthy envNoKey = false from rfl)
    7 emptyDB [unitOk, unitOk]

/-- On a well-shaped list of index entries the extraction loop computes
the spec-side reported AQI. -/
theorem get_aqi_loop_spec {idxs : List PyVal} (hwf : idxs.all indexWF = true) :
    get_aqi_loop idxs = .ok (encodeOpt (specAqiList idxs)) := by
  induction idxs with
  | nil => rfl
  | cons idx rest ih =>
      rw [List.all_cons, Bool.and_eq_true] at hwf
      obtain ⟨hidx, hrest⟩ := hwf
      cases idx with
      | jobj fs =>
          simp only [get_aqi_loop, pyGetD, exceptBindOk, specAqiList]
          have hcc : rowCell (jobj fs) "code" = (fs.lookup "code").getD jnull := rfl
          by_cases hc : pyEqStr ((fs.lookup "code").getD jnull) "uaqi" = true
          · rw [hcc, if_pos hc, if_pos hc]
            simp only [indexWF] at hidx
            cases hlv : fs.lookup "aqi" with
            | none => simp [rowCell, lookupField, hlv, encodeOpt]
            | some v =>
                rw [hlv] at hidx
                cases v <;> simp_all [rowCell, lookupField, encodeOpt]
          · have hc' : pyEqStr ((fs.lookup "code").getD jnull) "uaqi" = false := by
              simpa using hc
            rw [hcc, hc']
            simp only [Bool.false_eq_true, if_false]
            exact ih hrest
      | jnull => simp [indexWF] at hidx
      | jbool b => simp [indexWF] at hidx
      | jnum q => simp [indexWF] at hidx
      | jstr s => simp [indexWF] at hidx
      | jdate n => simp [indexWF] at hidx
      | jarr xs => simp [indexWF] at hidx

/-- On a well-shaped indexes cell get_aqi computes the spec-side reported
AQI. -/
theorem get_aqi_spec {cell : PyVal} (hwf : indexesCellWF cell = true) :
    get_aqi cell = .ok (encodeOpt (specAqiCell cell)) := by
  cases cell with
  | jarr idxs => exact get_aqi_loop_spec (by simpa [indexesCellWF] using hwf)
  | jnull => rfl
  | jbool b => rfl
  | jnum q => rfl
  | jstr s => rfl
  | jdate n => rfl
  | jobj fs => rfl

/-- A well-shaped pollutant entry carries a dict (or no) concentration. -/
theorem pollutant_conc_obj {fs : List (String × PyVal)}
    (hwf : pollutantWF (jobj fs) = true) :
    ∃ cfs : List (String × PyVal),
      (fs.lookup "concentration").getD (jobj []) = jobj cfs := by
  simp only [pollutantWF, Bool.and_eq_true] at hwf
  obtain ⟨_, hconc⟩ := hwf
  cases hcv : fs.lookup "concentration" with
  | none => exact ⟨[], rfl⟩
  | some conc =>
      rw [hcv] at hconc
      cases conc <;> simp_all

/-- The spec-side pair value through the concentration dict. -/
theorem specPairValue_eq {fs cfs : List (String × PyVal)}
    (hcfs : (fs.lookup "concentration").getD (jobj []) = jobj cfs) :
    specPairValue (jobj fs) = (cfs.lookup "value").getD jnull := by
  simp only [specPairValue, lookupField, hcfs, rowCell]

/-- On a well-shaped pollutant entry the comprehension step computes the
code cell and the concentration value. -/
theorem pollutantPair_spec {p : PyVal} (hwf : pollutantWF p = true) :
    pollutantPair p = .ok (rowCell p "code", specPairValue p) := by
  cases p with
  | jobj fs =>
      obtain ⟨cfs, hcfs⟩ := pollutant_conc_obj hwf
      simp only [pollutantWF, Bool.and_eq_true] at hwf
      obtain ⟨hcode, _⟩ := hwf
      simp only [pollutantPair, pyGetD, exceptBindOk, hcfs,
        specPairValue_eq hcfs]
      have hrc : rowCell (jobj fs) "code" = (fs.lookup "code").getD jnull := rfl
      cases hcd : fs.lookup "code" with
      | none => simp [rowCell, lookupField, hcd]
      | some cv =>
          rw [hcd] at hcode
          cases cv <;> simp_all [rowCell, lookupField, hcd]
  | jnull => simp [pollutantWF] at hwf
  | jbool b => simp [pollutantWF] at hwf
  | jnum q => simp [pollutantWF] at hwf
  | jstr s => simp [pollutantWF] at hwf
  | jdate n => simp [pollutantWF] at hwf
  | jarr xs => simp [pollutantWF] at hwf

/-- On a well-shaped pollutant list the comprehension builds the pair list
of code cells and concentration values. -/
theorem buildPollutantDict_spec {ps : List PyVal} (hwf : ps.all pollutantWF = true) :
    buildPollutantDict ps = .ok (ps.map (fun p => (rowCell p "code", specPairValue p))) := by
  induction ps with
  | nil => rfl
  | cons p rest ih =>
      rw [List.all_cons, Bool.and_eq_true] at hwf
      simp only [buildPollutantDict, pollutantPair_spec hwf.1, exceptBindOk, ih hwf.2,
        List.map_cons]

/-- A well-shaped pollutant entry reports null or a number. -/
theorem specPairValue_wf {p : PyVal} (hwf : pollutantWF p = true) :
    specPairValue p = jnull ∨ ∃ q, specPairValue p = jnum q := by
  cases p with
  | jobj fs =>
      simp only [pollutantWF, Bool.and_eq_true] at hwf
      obtain ⟨_, hconc⟩ := hwf
      cases hcv : fs.lookup "concentration" with
      | none => left; simp [specPairValue, lookupField, hcv, rowCell]
      | some conc =>
          rw [hcv] at hconc
          cases conc with
          | jobj cfs =>
              have hsp : specPairValue (jobj fs) = (cfs.lookup "value").getD jnull := by
                simp [specPairValue, lookupField, hcv, rowCell]
              rw [hsp]
              cases hvv : cfs.lookup "value" with
              | none => left; simp
              | some vv =>
                  simp only [hvv] at hconc
                  cases vv with
                  | jnull => left; rfl
                  | jnum q2 => right; exact ⟨q2, rfl⟩
                  | jbool b => simp at hconc
                  | jstr s2 => simp at hconc
                  | jdate n => simp at hconc
                  | jarr xs => simp at hconc
                  | jobj ofs => simp at hconc
          | jnull => simp at hconc
          | jbool b => simp at hconc
          | jnum q => simp at hconc
          | jstr s2 => simp at hconc
          | jdate n => simp at hconc
          | jarr xs => simp at hconc
  | jnull => simp [pollutantWF] at hwf
  | jbool b => simp [pollutantWF] at hwf
  | jnum q => simp [pollutantWF] at hwf
  | jstr s => simp [pollutantWF] at hwf
  | jdate n => simp [pollutantWF] at hwf
  | jarr xs => simp [pollutantWF] at hwf

/-- The dict lookup over the built pairs agrees with the spec-side
last-match extraction, down to the null / number encoding. -/
theorem dictGetAux_spec {ps : List PyVal} {code : String} {acc : Option PyVal}
    {accS : Option ℚ} (hwf : ps.all pollutantWF = true)
    (hacc : acc.getD jnull = encodeOpt accS) :
    (dictGetAux (ps.map (fun p => (rowCell p "code", specPairValue p))) code acc).getD jnull
      = encodeOpt (specPolList ps code accS) := by
  induction ps generalizing acc accS with
  | nil => simpa [dictGetAux, specPolList] using hacc
  | cons p rest ih =>
      rw [List.all_cons, Bool.and_eq_true] at hwf
      simp only [List.map_cons, dictGetAux, specPolList]
      by_cases hc : pyEqStr (rowCell p "code") code = true
      · rw [if_pos hc, if_pos hc]
        refine ih hwf.2 ?_
        rcases specPairValue_wf hwf.1 with hv | ⟨q, hv⟩ <;>
          simp [hv, encodeOpt]
      · have hc' : pyEqStr (rowCell p "code") code = false := by simpa using hc
        rw [hc']
        simp only [Bool.false_eq_true, if_false]
        exact ih hwf.2 hacc

/-- On a well-shaped pollutants cell get_pollutant_value computes the
spec-side reported value for the code. -/
theorem get_pollutant_value_spec {cell : PyVal} {code : String}
    (hwf : pollutantsCellWF cell = true) :
    get_pollutant_value cell code = .ok (encodeOpt (specPolCell cell code)) := by
  cases cell with
  | jarr ps =>
      have hps : ps.all pollutantWF = true := by simpa [pollutantsCellWF] using hwf
      simp only [get_pollutant_value, buildPollutantDict_spec hps, exceptBindOk,
        specPolCell, dictGetVal]
      rw [@dictGetAux_spec ps code none none hps rfl]
  | jnull => rfl
  | jbool b => rfl
  | jnum q => rfl
  | jstr s => rfl
  | jdate n => rfl
  | jobj fs => rfl

/-- Series.apply over cells on which the function succeeds pointwise. -/
theorem applyColumn_map {f : PyVal → Except PyErr PyVal} {g : PyVal → PyVal}
    {xs : List PyVal} (h : ∀ x ∈ xs, f x = .ok (g x)) :
    applyColumn f xs = .ok (xs.map g) := by
  induction xs with
  | nil => rfl
  | cons x rest ih =>
      simp only [applyColumn, h x (List.mem_cons_self x rest), exceptBindOk,
        ih (fun y hy => h y (List.mem_cons_of_mem x hy)), List.map_cons]

/-- A column that exists holds one cell per row. -/
theorem dfColumn_ok {rows : List PyVal} {k : String} {col : List PyVal}
    (h : dfColumn rows k = .ok col) : col = rows.map (fun r => rowCell r k) := by
  unfold dfColumn at h
  split at h
  · simp at h
  · injection h with h'; exact h'.symm

/-- The skipna mean of an encoded column is the spec-side daily mean. -/
theorem pandasMean_spec (vs : List (Option ℚ)) :
    pandasMean (vs.map encodeOpt) = encodeOpt (specDailyMean vs) := by
  have hfil : (vs.map encodeOpt).filter (fun c => !isNullCell c) =
      (vs.filterMap id).map jnum := by
    induction vs with
    | nil => rfl
    | cons v rest ih =>
        cases v with
        | none => simpa [encodeOpt, isNullCell] using ih
        | some q => simpa [encodeOpt, isNullCell] using ih
  simp only [pandasMean, hfil, specDailyMean]
  cases hxs : vs.filterMap id with
  | nil => simp [encodeOpt]
  | cons q qs =>
      simp only [List.map_cons, List.isEmpty_cons, Bool.false_eq_true, if_false,
        List.all_cons]
      have h2 : (qs.map jnum).all isNumCell = true := by
        rw [List.all_eq_true]
        intro x hx
        obtain ⟨y, _, hy⟩ := List.mem_map.1 hx
        rw [← hy]
        rfl
      have h1 : isNumCell (jnum q) = true := rfl
      rw [h1, h2]
      simp only [Bool.and_self, if_true, reduceIte]
      have hsum : cellQ (jnum q) :: List.map cellQ (List.map jnum qs) = q :: qs := by
        simp only [List.map_map]
        have hcomp : cellQ ∘ jnum = id := funext fun x => rfl
        rw [hcomp, List.map_id]
        rfl
      rw [hsum]
      simp [encodeOpt, List.length_map]

/-- The skipna mean over an encoded extraction is the spec-side daily
mean of the extraction. -/
theorem pandasMean_map_spec {α : Type} (f : α → Option ℚ) (xs : List α) :
    pandasMean (xs.map (fun x => encodeOpt (f x))) =
      encodeOpt (specDailyMean (xs.map f)) := by
  have hm : xs.map (fun x => encodeOpt (f x)) = (xs.map f).map encodeOpt := by
    rw [List.map_map]
    rfl
  rw [hm]
  exact pandasMean_spec _

/-- The aqi column of the historical transform computes the spec-side
reported AQI of every hourly entry. -/
theorem aqiColumn_spec {hours : List PyVal} (hwf : hours.all hourRowWF = true) :
    applyColumn get_aqi (hours.map (fun row => rowCell row "indexes")) =
      .ok (hours.map (fun row => encodeOpt (specAqiCell (rowCell row "indexes")))) := by
  have h1 : applyColumn get_aqi (hours.map (fun row => rowCell row "indexes")) =
      .ok ((hours.map (fun row => rowCell row "indexes")).map
        (fun c => encodeOpt (specAqiCell c))) := by
    refine applyColumn_map ?_
    intro x hx
    obtain ⟨row, hrow, hx'⟩ := List.mem_map.1 hx
    rw [← hx']
    refine get_aqi_spec ?_
    have hr := List.all_eq_true.1 hwf row hrow
    simp only [hourRowWF, Bool.and_eq_true] at hr
    exact hr.1.2
  rw [h1, List.map_map]
  rfl

/-- A pollutant column of the historical transform computes the spec-side
reported value of every hourly entry for the code. -/
theorem polColumn_spec {hours : List PyVal} (code : String)
    (hwf : hours.all hourRowWF = true) :
    applyColumn (fun c => get_pollutant_value c code)
      (hours.map (fun row => rowCell row "pollutants")) =
      .ok (hours.map (fun row => encodeOpt (specPolCell (rowCell row "pollutants") code))) := by
  have h1 : applyColumn (fun c => get_pollutant_value c code)
      (hours.map (fun row => rowCell row "pollutants")) =
      .ok ((hours.map (fun row => rowCell row "pollutants")).map
        (fun c => encodeOpt (specPolCell c code))) := by
    refine applyColumn_map ?_
    intro x hx
    obtain ⟨row, hrow, hx'⟩ := List.mem_map.1 hx
    rw [← hx']
    refine get_pollutant_value_spec ?_
    have hr := List.all_eq_true.1 hwf row hrow
    simp only [hourRowWF, Bool.and_eq_true] at hr
    exact hr.2
  rw [h1, List.map_map]
  rfl

/-- C2: in the historical merge, for AQI and each of the six pollutant
codes, the output value is the arithmetic mean of that field over exactly
the hourly entries that report a value for it, entries missing the field
being ignored, and null when no entry reports it — on well-shaped hourly
entries (reported values are null or numbers). -/
theorem c2_historical_mean {d : ℕ} {a w : Option PyVal} {r : PyVal}
    {hours : List PyVal}
    (hhours : lookupField (a.getD jnull) "hoursInfo" = some (jarr hours))
    (hwf : hours.all hourRowWF = true)
    (h : transform_historical_data d a w = some r) :
    lookupField r "aqi" = some (encodeOpt (specDailyMean
      (hours.map (fun row => specAqiCell (rowCell row "indexes"))))) ∧
    lookupField r "pm10" = some (encodeOpt (specDailyMean
      (hours.map (fun row => specPolCell (rowCell row "pollutants") "pm10")))) ∧
    lookupField r "pm25" = some (encodeOpt (specDailyMean
      (hours.map (fun row => specPolCell (rowCell row "pollutants") "pm25")))) ∧
    lookupField r "o3" = some (encodeOpt (specDailyMean
      (hours.map (fun row => specPolCell (rowCell row "pollutants") "o3")))) ∧
    lookupField r "no2" = some (encodeOpt (specDailyMean
      (hours.map (fun row => specPolCell (rowCell row "pollutants") "no2")))) ∧
    lookupField r "co" = some (encodeOpt (specDailyMean
      (hours.map (fun row => specPolCell (rowCell row "pollutants") "co")))) ∧
    lookupField r "so2" = some (encodeOpt (specDailyMean
      (hours.map (fun row => specPolCell (rowCell row "pollutants") "so2")))) := by
  simp only [transform_historical_data] at h
  split at h
  · simp at h
  · cases hb : transform_historical_body d (a.getD jnull) (w.getD jnull) with
    | error e => rw [hb] at h; simp at h
    | ok ro =>
        rw [hb] at h
        simp only [] at h
        simp only [transform_historical_body, bind, Except.bind] at hb
        cases hwt : weatherTriple (w.getD jnull) with
        | error e => rw [hwt] at hb; simp at hb
        | ok tw =>
            rw [hwt] at hb
            cases hav : a.getD jnull with
            | jobj afs =>
                rw [hav] at hhours hb
                simp only [lookupField] at hhours
                simp only [pyGetD, hhours, Option.getD_some] at hb
                cases hours with
                | nil =>
                    simp only [pyTruthy, List.isEmpty_nil, Bool.not_true,
                      Bool.not_false, reduceIte] at hb
                    injection hb with hb2
                    rw [← hb2] at h
                    simp at h
                | cons h0 hs =>
                    simp only [pyTruthy, List.isEmpty_cons, Bool.not_true,
                      Bool.not_false, Bool.false_eq_true, reduceIte] at hb
                    have hobj : (h0 :: hs).all isObjCell = true := by
                      rw [List.all_eq_true] at hwf ⊢
                      intro x hx
                      have hr := hwf x hx
                      simp only [hourRowWF, Bool.and_eq_true] at hr
                      exact hr.1.1
                    simp only [dfRows, hobj, if_true, reduceIte] at hb
                    cases hic : dfColumn (h0 :: hs) "indexes" with
                    | error e => rw [hic] at hb; simp at hb
                    | ok idxCol =>
                        rw [hic] at hb
                        simp only [] at hb
                        have hidx := dfColumn_ok hic
                        subst hidx
                        rw [aqiColumn_spec hwf] at hb
                        simp only [] at hb
                        cases hpc : dfColumn (h0 :: hs) "pollutants" with
                        | error e => rw [hpc] at hb; simp at hb
                        | ok polCol =>
                            rw [hpc] at hb
                            simp only [] at hb
                            have hpol := dfColumn_ok hpc
                            subst hpol
                            rw [polColumn_spec "pm10" hwf] at hb
                            simp only [] at hb
                            rw [polColumn_spec "pm25" hwf] at hb
                            simp only [] at hb
                            rw [polColumn_spec "o3" hwf] at hb
                            simp only [] at hb
                            rw [polColumn_spec "no2" hwf] at hb
                            simp only [] at hb
                            rw [polColumn_spec "co" hwf] at hb
                            simp only [] at hb
                            rw [polColumn_spec "so2" hwf] at hb
                            simp only [] at hb
                            injection hb with hb2
                            rw [← hb2] at h
                            simp only [Option.some.injEq] at h
                            subst h
                            refine ⟨?_, ?_, ?_, ?_, ?_, ?_, ?_⟩ <;>
                              · rw [← pandasMean_map_spec]
                                rfl
            | jnull => simp [hav, lookupField] at hhours
            | jbool b => simp [hav, lookupField] at hhours
            | jnum q => simp [hav, lookupField] at hhours
            | jstr s => simp [hav, lookupField] at hhours
            | jdate n => simp [hav, lookupField] at hhours
            | jarr xs => simp [hav, lookupField] at hhours

/-- C2 witness: concrete instantiation at hoursW; the pm25 output is the
mean 20 of the reporting hours and a field no hour reports is null. -/
theorem c2_historical_mean_witness :
    (lookupField histRecordW "aqi" = some (encodeOpt (specDailyMean
      (hoursW.map (fun row => specAqiCell (rowCell row "indexes"))))) ∧
    lookupField histRecordW "pm10" = some (encodeOpt (specDailyMean
      (hoursW.map (fun row => specPolCell (rowCell row "pollutants") "pm10")))) ∧
    lookupField histRecordW "pm25" = some (encodeOpt (specDailyMean
      (hoursW.map (fun row => specPolCell (rowCell row "pollutants") "pm25")))) ∧
    lookupField histRecordW "o3" = some (encodeOpt (specDailyMean
      (hoursW.map (fun row => specPolCell (rowCell row "pollutants") "o3")))) ∧
    lookupField histRecordW "no2" = some (encodeOpt (specDailyMean
      (hoursW.map (fun row => specPolCell (rowCell row "pollutants") "no2")))) ∧
    lookupField histRecordW "co" = some (encodeOpt (specDailyMean
      (hoursW.map (fun row => specPolCell (rowCell row "pollutants") "co")))) ∧
    lookupField histRecordW "so2" = some (encodeOpt (specDailyMean
      (hoursW.map (fun row => specPolCell (rowCell row "pollutants") "so2"))))) ∧
    lookupField histRecordW "pm25" = some (jnum 20) ∧
    lookupField histRecordW "so2" = some jnull :=
  ⟨c2_historical_mean
    (show lookupField ((some aqiHistW).getD jnull) "hoursInfo" = some (jarr hoursW) from rfl)
    (show hoursW.all hourRowWF = true from rfl)
    (show transform_historical_data 5 (some aqiHistW) (some weatherRespX) = some histRecordW
      by with_unfolding_all rfl),
   rfl, rfl⟩

/-- C3 witness: upserting (loc, date, aqi 5) and then (loc, date, aqi
null) leaves exactly one row for the key and its aqi is null. -/
theorem c3_upsert_replaces_witness :
    (dbAfter2.readings.filter (sameReadingKey (suppliedRow fsAqiNull 1 7)) =
      [suppliedRow fsAqiNull 1 7] ∧
    (dbAfter1.readings.any (sameReadingKey (suppliedRow fsAqiNull 1 7)) = true →
      dbAfter2.readings.length = dbAfter1.readings.length)) ∧
    (suppliedRow fsAqiNull 1 7).aqi = jnull :=
  ⟨c3_upsert_replaces
    (show DBWF dbAfter1 by
      refine ⟨by decide, by decide, by decide, ?_⟩
      decide)
    (show fsAqiNull.lookup "reading_date" = some (jdate 7) from rfl)
    (show load_data dbAfter1 savannahInfo (jobj fsAqiNull) false =
      .ok (dbAfter2, jobj (fsAqiNull ++ [("location_id", jnum 1)]), some 1) from rfl),
   rfl⟩

/-- C4 witness: two loads for Savannah against the empty store reuse
location id 1 and leave a single location row. -/
theorem c4_location_stable_witness :
    1 = 1 ∧ dbAfter2.locations = dbAfter1.locations ∧
    locMatches dbAfter2 savannahInfo = locMatches dbAfter1 savannahInfo ∧
    (locMatches dbAfter2 savannahInfo).length = 1 ∧
    (∀ r ∈ dbAfter2.readings, ∃ l ∈ dbAfter2.locations, l.id = r.location_id) :=
  c4_location_stable
    (show DBWF emptyDB by refine ⟨by decide, by decide, by decide, ?_⟩; decide)
    rfl rfl
    (show load_data emptyDB savannahInfo (jobj fsAqi5) false =
      .ok (dbAfter1, jobj (fsAqi5 ++ [("location_id", jnum 1)]), some 1) from rfl)
    (show load_data dbAfter1 savannahInfo (jobj fsAqiNull) false =
      .ok (dbAfter2, jobj (fsAqiNull ++ [("location_id", jnum 1)]), some 1) from rfl)

/-- C5 witness: concrete transforms carry the supplied dates. -/
theorem c5_reading_date_witness :
    lookupField etlRecordX "reading_date" = some (jdate 3) ∧
    lookupField histRecordW "reading_date" = some (jdate 5) :=
  ⟨c5_reading_date.1 3 (some aqiRespX) (some weatherRespX) etlRecordX rfl,
   c5_reading_date.2 5 (some aqiHistW) (some weatherRespX) histRecordW
     (by with_unfolding_all rfl)⟩

/-- C7 witness: cutting the concrete first-load trace right after its two
writes but before the commit leaves the store untouched and dangle
free. -/
theorem c7_transactional_witness :
    (runTxnCrash emptyDB traceW 2 = emptyDB ∨
      runTxnCrash emptyDB traceW 2 = runTxn emptyDB traceW) ∧
    ((∀ r ∈ emptyDB.readings, ∃ l ∈ emptyDB.locations, l.id = r.location_id) →
      ∀ r ∈ (runTxnCrash emptyDB traceW 2).readings,
        ∃ l ∈ (runTxnCrash emptyDB traceW 2).locations, l.id = r.location_id) :=
  c7_transactional
    (show load_data_trace emptyDB savannahInfo (jobj fsAqi5) false =
      .ok (traceW, jobj (fsAqi5 ++ [("location_id", jnum 1)]), some 1) from rfl) 2

/-- C10 witness: after the concrete load the dict carries location_id 1
and its aqi entry is untouched. -/
theorem c10_load_mutates_dict_witness :
    lookupField (jobj (fsAqi5 ++ [("location_id", jnum 1)])) "location_id" =
      some (jnum 1) ∧
    lookupField (jobj (fsAqi5 ++ [("location_id", jnum 1)])) "aqi" =
      fsAqi5.lookup "aqi" :=
  ⟨(c10_load_mutates_dict
      (show load_data emptyDB savannahInfo (jobj fsAqi5) false =
        .ok (dbAfter1, jobj (fsAqi5 ++ [("location_id", jnum 1)]), some 1) from rfl)).1,
   (c10_load_mutates_dict
      (show load_data emptyDB savannahInfo (jobj fsAqi5) false =
        .ok (dbAfter1, jobj (fsAqi5 ++ [("location_id", jnum 1)]), some 1) from rfl)).2
     "aqi" (by decide)⟩

